import Mathlib

/-!
Verification of the AgentMemory storage/retrieval engine
(`src/skills/agent-memory/src/memory.py`).

Shallow embedding conventions:
* SQLite tables are Lean lists of row structures; `facts.rowid` is the SQLite
  rowid, assigned as max existing rowid + 1 on insert.
* ISO-8601 UTC timestamp strings compare lexicographically exactly as the
  instants they denote compare, so timestamps are modelled as integers, and
  `timedelta(days=d)` as the integer `d` (one unit = one day, the only
  granularity the engine ever adds or subtracts).
* `datetime.utcnow()` calls inside a single operation are modelled by one
  `now` parameter for that operation.
* `_generate_id` (sha256 of content + timestamp, truncated) is modelled by an
  explicit id parameter; theorems that need it assume the id is fresh.
* REAL confidence values are modelled as rationals (only their ordering is
  ever used).
* JSON-encoded tag arrays are `List String`; JSON attribute objects are
  insertion-ordered association lists `List (String × String)` with opaque
  string values, which is faithful to Python `dict` for the lookup,
  wholesale-replacement and `dict.update` merge operations the code performs.
* The fts5 MATCH predicate and bm25-based `rank` of the search engine are
  abstracted as an `Fts5Engine` parameter; `ORDER BY` is a stable sort and
  SQL row order is list order.
* Python truthiness tests on arguments (`if expires_in_days:`, `if tags:`,
  `if context:`, `if outcome:`, `if entity_type:`) are modelled exactly:
  `none`, `some 0`, `some []` and `some ""` are falsy.
-/

namespace AgentMemory

/-- Row of the `facts` table (the unused `embedding` column, never written or
read by any operation, is omitted). -/
structure FactRow where
  rowid : Nat
  id : String
  content : String
  tags : List String
  source : String
  confidence : Rat
  created_at : Int
  last_accessed : Int
  access_count : Nat
  expires_at : Option Int
  superseded_by : Option String
deriving DecidableEq, Repr

/-- Row of the `facts_fts` full-text index (rowid, content, tags). -/
structure FtsRow where
  rowid : Nat
  content : String
  tags : List String
deriving DecidableEq, Repr

/-- Row of the `lessons` table. -/
structure LessonRow where
  id : String
  action : String
  context : String
  outcome : String
  insight : String
  created_at : Int
  applied_count : Nat
deriving DecidableEq, Repr

/-- Row of the `entities` table. -/
structure EntityRow where
  id : String
  name : String
  entity_type : String
  attributes : List (String × String)
  first_seen : Int
  last_updated : Int
  fact_ids : List String
deriving DecidableEq, Repr

/-- The SQLite database state: the three tables plus the fts5 index. -/
structure DB where
  facts : List FactRow
  facts_fts : List FtsRow
  lessons : List LessonRow
  entities : List EntityRow
deriving DecidableEq, Repr

def emptyDB : DB := ⟨[], [], [], []⟩

/-- Abstraction of the fts5 engine (porter tokenizer): the MATCH predicate
over a query and an indexed (content, tags) pair, and the relevance rank
(SQLite's fts5 rank is ascending-better). -/
structure Fts5Engine where
  isMatch : String → String → List String → Bool
  rank : String → String → List String → Int

/-- SQLite assigns a fresh rowid of max existing rowid + 1. -/
def nextRowid (l : List FactRow) : Nat := (l.map (·.rowid)).foldr max 0 + 1

/-- Stable insertion used by `sortBy`. -/
def insertBy {α : Type} (le : α → α → Bool) (a : α) : List α → List α
  | [] => [a]
  | b :: l => if le a b then a :: b :: l else b :: insertBy le a l

/-- Stable sort (models SQL ORDER BY; tie order is the table row order). -/
def sortBy {α : Type} (le : α → α → Bool) : List α → List α
  | [] => []
  | a :: l => insertBy le a (sortBy le l)

/-- All suffixes of a list, longest first. -/
def tailsL {α : Type} : List α → List (List α)
  | [] => [[]]
  | a :: l => (a :: l) :: tailsL l

/-- ASCII lower-casing, the case folding SQLite's default LIKE uses
(case-insensitive for ASCII letters only). -/
def asciiLower (ch : Char) : Char :=
  if 'A' ≤ ch ∧ ch ≤ 'Z' then Char.ofNat (ch.toNat + 32) else ch

/-- Character comparison of SQLite LIKE: equal up to ASCII case. -/
def charLikeEq (p ch : Char) : Bool := asciiLower p = asciiLower ch

/-- SQLite LIKE pattern matching: `%` matches any (possibly empty) sequence,
`_` any single character, other characters match ASCII-case-insensitively. -/
def likeMatch : List Char → List Char → Bool
  | [], s => s.isEmpty
  | p :: ps, s =>
    if p = '%' then (tailsL s).any fun t => likeMatch ps t
    else match s with
      | [] => false
      | ch :: t => (decide (p = '_') || charLikeEq p ch) && likeMatch ps t

/-- Specification-side predicate: `needle` occurs in `hay` as a substring when
both are compared ASCII-case-insensitively. -/
def substrCI (needle hay : String) : Bool :=
  (tailsL (hay.toList.map asciiLower)).any fun t =>
    (needle.toList.map asciiLower).isPrefixOf t

/-- Python `dict` lookup on an association list (first binding wins; Python
dicts have unique keys, so this is faithful). -/
def alookup {β : Type} (k : String) (l : List (String × β)) : Option β :=
  (l.find? fun kv => kv.1 = k).map (·.2)

/-- Python `dict.update` merge: existing keys keep their position but take the
new value; keys only in the update are appended in order. -/
def dictUpdate (old upd : List (String × String)) : List (String × String) :=
  (old.map fun kv =>
    match upd.find? (fun kv2 => kv2.1 = kv.1) with
    | some kv2 => (kv.1, kv2.2)
    | none => kv)
  ++ upd.filter fun kv2 => !(old.any fun kv => kv.1 = kv2.1)

/-- `AgentMemory.remember`: computes `expires_at` (note the Python truthiness
test `if expires_in_days:`, under which 0 behaves like None), inserts the
facts row, then inserts into `facts_fts` the (rowid, content, tags) of every
facts row with the new id, all committed as one unit of work.  `tags=None`
defaults to `[]` (`tags = tags or []`), handled by the caller passing `[]`. -/
def remember (db : DB) (factId : String) (now : Int) (content : String)
    (tags : List String) (source : String) (confidence : Rat)
    (expires_in_days : Option Int) : DB × String :=
  let expires_at : Option Int :=
    match expires_in_days with
    | none => none
    | some d => if d = 0 then none else some (now + d)
  let row : FactRow :=
    { rowid := nextRowid db.facts, id := factId, content := content,
      tags := tags, source := source, confidence := confidence,
      created_at := now, last_accessed := now, access_count := 1,
      expires_at := expires_at, superseded_by := none }
  let facts := db.facts ++ [row]
  let ftsNew := (facts.filter fun f => f.id = factId).map fun f =>
    ({ rowid := f.rowid, content := f.content, tags := f.tags } : FtsRow)
  ({ db with facts := facts, facts_fts := db.facts_fts ++ ftsNew }, factId)

/-- The WHERE clause of `recall`'s SELECT, for one facts row: join it with its
fts index entry (fts5 rowids are unique) and keep it when the engine matches
the query and `confidence >= min_confidence`, `expires_at IS NULL OR
expires_at > now`, `superseded_by IS NULL`; pairs the row with its rank. -/
def recallFilter (eng : Fts5Engine) (query : String) (min_confidence : Rat)
    (now : Int) (db : DB) (f : FactRow) : Option (FactRow × Int) :=
  match db.facts_fts.find? (fun x => x.rowid = f.rowid) with
  | none => none
  | some x =>
    if eng.isMatch query x.content x.tags
        && decide (min_confidence ≤ f.confidence)
        && (match f.expires_at with | none => true | some e => decide (now < e))
        && f.superseded_by.isNone
    then some (f, eng.rank query x.content x.tags)
    else none

/-- The Python-side tag filter of `recall`: `if tags and not all(t in fact.tags
for t in tags): continue` — rows are kept when `tags` is falsy (None or empty)
or every listed tag is present (conjunctive). -/
def tagFilterAll (tags : Option (List String)) (f : FactRow) : Bool :=
  match tags with
  | none => true
  | some ts => ts.isEmpty || ts.all fun t => f.tags.contains t

/-- One access-statistics UPDATE of `recall`: `UPDATE facts SET last_accessed
= now, access_count = access_count + 1 WHERE id = ?`, applied to one row. -/
def updAccess (now : Int) (fid : String) (g : FactRow) : FactRow :=
  if g.id = fid
  then { g with last_accessed := now, access_count := g.access_count + 1 }
  else g

/-- The cumulative effect of `recall`'s sequence of access-statistics UPDATEs
on one row: fold `updAccess` over the returned facts. -/
def applySeq (now : Int) (rs : List FactRow) (g : FactRow) : FactRow :=
  rs.foldl (fun g f => updAccess now f.id g) g

/-- `AgentMemory.recall`: SELECT joined with the fts index, filtered, ORDER BY
rank, LIMIT; then the Python loop applies the conjunctive tag filter and, for
each returned fact, runs the access-statistics UPDATE keyed by its id.
Returns the facts (their pre-update snapshots, as the code builds the `Fact`
objects before the UPDATE) and the new database state. -/
def recallFacts (db : DB) (eng : Fts5Engine) (query : String) (limit : Nat)
    (tags : Option (List String)) (min_confidence : Rat) (now : Int) :
    List FactRow × DB :=
  let joined := db.facts.filterMap (recallFilter eng query min_confidence now db)
  let rows := ((sortBy (fun a b => decide (a.2 ≤ b.2)) joined).map (·.1)).take limit
  let returned := rows.filter (tagFilterAll tags)
  let facts := returned.foldl (fun acc f => acc.map (updAccess now f.id)) db.facts
  (returned, { db with facts := facts })

/-- `AgentMemory.get_fact`: point SELECT by id (`fetchone`: first match). -/
def get_fact (db : DB) (factId : String) : Option FactRow :=
  db.facts.find? fun f => f.id = factId

/-- `AgentMemory.list_facts`: SELECT with optional superseded filter, ORDER BY
`created_at` DESC, LIMIT; then the Python loop applies the disjunctive tag
filter (`if tags and not any(...)`). -/
def list_facts (db : DB) (tags : Option (List String)) (limit : Nat)
    (include_superseded : Bool) : List FactRow :=
  let rows := db.facts.filter fun f => include_superseded || f.superseded_by.isNone
  let rows := (sortBy (fun a b => decide (b.created_at ≤ a.created_at)) rows).take limit
  rows.filter fun f =>
    match tags with
    | none => true
    | some ts => ts.isEmpty || ts.any fun t => f.tags.contains t

/-- `AgentMemory.supersede`: `remember` the new content (its own commit), then
UPDATE `superseded_by` on every facts row whose id is `old_fact_id` (a second
commit); returns the new id. -/
def supersede (db : DB) (newId : String) (now : Int) (old_fact_id : String)
    (new_content : String) (tags : List String) (source : String)
    (confidence : Rat) (expires_in_days : Option Int) : DB × String :=
  let r := remember db newId now new_content tags source confidence expires_in_days
  let facts := r.1.facts.map fun f =>
    if f.id = old_fact_id then { f with superseded_by := some r.2 } else f
  ({ r.1 with facts := facts }, r.2)

/-- `AgentMemory.forget`: DELETE FROM facts WHERE id = ?.  The fts index is
not touched by the source. -/
def forget (db : DB) (factId : String) : DB :=
  { db with facts := db.facts.filter fun f => !(f.id = factId) }

/-- The DELETE predicate of `forget_stale`: `last_accessed < now - days AND
access_count <= min_access_count AND superseded_by IS NULL`. -/
def staleCond (now days : Int) (min_access_count : Nat) (f : FactRow) : Bool :=
  decide (f.last_accessed < now - days)
    && decide (f.access_count ≤ min_access_count)
    && f.superseded_by.isNone

/-- `AgentMemory.forget_stale`: DELETE with `staleCond`, returning
`cursor.rowcount`, the number of rows deleted. -/
def forget_stale (db : DB) (now days : Int) (min_access_count : Nat) :
    DB × Nat :=
  let deleted := (db.facts.filter (staleCond now days min_access_count)).length
  ({ db with facts := db.facts.filter fun f => !(staleCond now days min_access_count f) },
   deleted)

/-- `AgentMemory.learn`: INSERT the lesson row.  The source performs no
validation of `outcome` whatsoever. -/
def learn (db : DB) (lessonId : String) (now : Int)
    (action context outcome insight : String) : DB × String :=
  ({ db with lessons := db.lessons ++
      [{ id := lessonId, action := action, context := context,
         outcome := outcome, insight := insight, created_at := now,
         applied_count := 0 }] }, lessonId)

/-- The WHERE clause of `get_lessons`: `context LIKE '%c%'` when the context
argument is truthy, `outcome = o` when the outcome argument is truthy. -/
def lessonFilter (context : Option String) (outcome : Option String)
    (r : LessonRow) : Bool :=
  (match context with
   | none => true
   | some c =>
     c.isEmpty || likeMatch ('%' :: (c.toList ++ ['%'])) r.context.toList)
  && (match outcome with
      | none => true
      | some o => o.isEmpty || decide (r.outcome = o))

/-- `AgentMemory.get_lessons`: filtered SELECT, ORDER BY `created_at` DESC,
LIMIT. -/
def get_lessons (db : DB) (context : Option String) (outcome : Option String)
    (limit : Nat) : List LessonRow :=
  (sortBy (fun a b => decide (b.created_at ≤ a.created_at))
    (db.lessons.filter (lessonFilter context outcome))).take limit

/-- `AgentMemory.track_entity`: SELECT by (name, entity_type); on a hit,
UPDATE attributes (wholesale) and `last_updated` keyed by the found id and
return that id; otherwise INSERT a fresh row with `first_seen = last_updated =
now` and empty `fact_ids`. -/
def track_entity (db : DB) (freshId : String) (now : Int)
    (name entity_type : String) (attributes : List (String × String)) :
    DB × String :=
  match db.entities.find? (fun e => e.name = name && e.entity_type = entity_type) with
  | some e =>
    ({ db with entities := db.entities.map fun x =>
        if x.id = e.id
        then { x with attributes := attributes, last_updated := now }
        else x }, e.id)
  | none =>
    ({ db with entities := db.entities ++
        [{ id := freshId, name := name, entity_type := entity_type,
           attributes := attributes, first_seen := now, last_updated := now,
           fact_ids := [] }] }, freshId)

/-- `AgentMemory.get_entity`: type-qualified lookup when `entity_type` is
truthy (`if entity_type:` — an empty string behaves like None), else first
match by name alone. -/
def get_entity (db : DB) (name : String) (entity_type : Option String) :
    Option EntityRow :=
  match entity_type with
  | some t =>
    if t.isEmpty then db.entities.find? fun e => e.name = name
    else db.entities.find? fun e => e.name = name && e.entity_type = t
  | none => db.entities.find? fun e => e.name = name

/-- `AgentMemory.update_entity`: SELECT by (name, entity_type); absent yields
(unchanged store, None); otherwise `dict.update`-merge the attributes, UPDATE
the row keyed by its id with `last_updated = now`, and re-read the entity via
`get_entity`. -/
def update_entity (db : DB) (now : Int) (name entity_type : String)
    (attributes : List (String × String)) : DB × Option EntityRow :=
  match db.entities.find? (fun e => e.name = name && e.entity_type = entity_type) with
  | none => (db, none)
  | some e =>
    let merged := dictUpdate e.attributes attributes
    let db' : DB := { db with entities := db.entities.map fun x =>
        if x.id = e.id
        then { x with attributes := merged, last_updated := now }
        else x }
    (db', get_entity db' name (some entity_type))

/-! ### Concrete database states used by witnesses and counterexamples -/

/-- A fact whose fts entry ranks best for query `"q"` but which lacks tag
`"t"`. -/
def rowA9 : FactRow :=
  { rowid := 1, id := "a9", content := "alpha", tags := [],
    source := "conversation", confidence := 1, created_at := 0,
    last_accessed := 0, access_count := 1, expires_at := none,
    superseded_by := none }

/-- A fact that carries tag `"t"` but ranks second for query `"q"`. -/
def rowB9 : FactRow :=
  { rowid := 2, id := "b9", content := "beta", tags := ["t"],
    source := "conversation", confidence := 1, created_at := 0,
    last_accessed := 0, access_count := 1, expires_at := none,
    superseded_by := none }

def dbC9 : DB :=
  { emptyDB with
    facts := [rowA9, rowB9],
    facts_fts := [{ rowid := 1, content := "alpha", tags := [] },
                  { rowid := 2, content := "beta", tags := ["t"] }] }

/-- Engine for which query `"q"` matches both indexed facts, ranking
`"alpha"` best. -/
def engC9 : Fts5Engine :=
  { isMatch := fun q _ _ => q = "q",
    rank := fun _ c _ => if c = "alpha" then -2 else -1 }

/-- Newest fact, without tag `"t"`. -/
def rowN9 : FactRow :=
  { rowid := 1, id := "n9", content := "newer", tags := [],
    source := "conversation", confidence := 1, created_at := 10,
    last_accessed := 10, access_count := 1, expires_at := none,
    superseded_by := none }

/-- Older fact, carrying tag `"t"`. -/
def rowO9 : FactRow :=
  { rowid := 2, id := "o9", content := "older", tags := ["t"],
    source := "conversation", confidence := 1, created_at := 5,
    last_accessed := 5, access_count := 1, expires_at := none,
    superseded_by := none }

def dbL9 : DB :=
  { emptyDB with
    facts := [rowN9, rowO9],
    facts_fts := [{ rowid := 1, content := "newer", tags := [] },
                  { rowid := 2, content := "older", tags := ["t"] }] }

/-- Eleven lessons, all with context `"deployment"`, with distinct creation
times `0..10`. -/
def mkLessonC10 (i : Nat) : LessonRow :=
  { id := toString i, action := "deployed", context := "deployment",
    outcome := "negative", insight := "always test first",
    created_at := (i : Int), applied_count := 0 }

def dbC10 : DB := { emptyDB with lessons := (List.range 11).map mkLessonC10 }

/-- One fact matching the witness query for `recall`. -/
def rowW1 : FactRow :=
  { rowid := 1, id := "w1", content := "boss prefers brief updates",
    tags := ["preference"], source := "conversation", confidence := 1,
    created_at := 0, last_accessed := 0, access_count := 1,
    expires_at := none, superseded_by := none }

def dbW1 : DB :=
  { emptyDB with
    facts := [rowW1],
    facts_fts := [{ rowid := 1, content := "boss prefers brief updates",
                    tags := ["preference"] }] }

def engW1 : Fts5Engine :=
  { isMatch := fun q _ _ => q = "boss updates", rank := fun _ _ _ => -1 }

/-- The fact superseded in the C4 witness. -/
def rowW4 : FactRow :=
  { rowid := 1, id := "old4", content := "old fact", tags := [],
    source := "conversation", confidence := 1, created_at := 0,
    last_accessed := 0, access_count := 1, expires_at := none,
    superseded_by := none }

def dbW4 : DB :=
  { emptyDB with
    facts := [rowW4],
    facts_fts := [{ rowid := 1, content := "old fact", tags := [] }] }

/-- A neglected active fact: old `last_accessed`, low `access_count`. -/
def rowStale5 : FactRow :=
  { rowid := 1, id := "s5", content := "stale", tags := [],
    source := "conversation", confidence := 1, created_at := 0,
    last_accessed := 0, access_count := 1, expires_at := none,
    superseded_by := none }

/-- A superseded fact that is equally old and unaccessed. -/
def rowSup5 : FactRow :=
  { rowid := 2, id := "p5", content := "superseded", tags := [],
    source := "conversation", confidence := 1, created_at := 0,
    last_accessed := 0, access_count := 1, expires_at := none,
    superseded_by := some "s5" }

/-- A recently accessed fact. -/
def rowFresh5 : FactRow :=
  { rowid := 3, id := "f5", content := "fresh", tags := [],
    source := "conversation", confidence := 1, created_at := 0,
    last_accessed := 99, access_count := 1, expires_at := none,
    superseded_by := none }

def dbW5 : DB :=
  { emptyDB with
    facts := [rowStale5, rowSup5, rowFresh5],
    facts_fts := [{ rowid := 1, content := "stale", tags := [] },
                  { rowid := 2, content := "superseded", tags := [] },
                  { rowid := 3, content := "fresh", tags := [] }] }

/-- Pre-existing entity for the C7 witness. -/
def entW7 : EntityRow :=
  { id := "e7", name := "Alex", entity_type := "person",
    attributes := [("role", "boss"), ("team", "ops")],
    first_seen := 0, last_updated := 0, fact_ids := [] }

def dbW7 : DB := { emptyDB with entities := [entW7] }

/-- Two lessons for the C10 witness, one of them matching `"Deploy"`. -/
def lessonW10a : LessonRow :=
  { id := "la", action := "deployed without testing", context := "deployment",
    outcome := "negative", insight := "always test first",
    created_at := 1, applied_count := 0 }

def lessonW10b : LessonRow :=
  { id := "lb", action := "traded", context := "crypto trading",
    outcome := "negative", insight := "need confirmation signals",
    created_at := 2, applied_count := 0 }

def dbW10 : DB := { emptyDB with lessons := [lessonW10a, lessonW10b] }

/-! ### Helper lemmas about the list combinators of the embedding -/

theorem mem_insertBy {α : Type} (le : α → α → Bool) (x a : α) (l : List α) :
    a ∈ insertBy le x l ↔ a = x ∨ a ∈ l := by
  induction l with
  | nil => simp [insertBy]
  | cons b l ih =>
    simp only [insertBy]
    split
    · simp [List.mem_cons]
    · simp only [List.mem_cons, ih]
      tauto

theorem mem_sortBy {α : Type} (le : α → α → Bool) (a : α) (l : List α) :
    a ∈ sortBy le l ↔ a ∈ l := by
  induction l with
  | nil => simp [sortBy]
  | cons b l ih => simp [sortBy, mem_insertBy, ih]

theorem countP_insertBy {α : Type} (le : α → α → Bool) (x : α) (p : α → Bool)
    (l : List α) : (insertBy le x l).countP p = (x :: l).countP p := by
  induction l with
  | nil => rfl
  | cons b l ih =>
    simp only [insertBy]
    split
    · rfl
    · simp only [List.countP_cons, ih]
      omega

theorem countP_sortBy {α : Type} (le : α → α → Bool) (p : α → Bool)
    (l : List α) : (sortBy le l).countP p = l.countP p := by
  induction l with
  | nil => rfl
  | cons b l ih =>
    simp only [sortBy]
    rw [countP_insertBy]
    simp only [List.countP_cons, ih]

theorem length_insertBy {α : Type} (le : α → α → Bool) (x : α) (l : List α) :
    (insertBy le x l).length = l.length + 1 := by
  induction l with
  | nil => rfl
  | cons b l ih =>
    simp only [insertBy]
    split <;> simp [ih]

theorem length_sortBy {α : Type} (le : α → α → Bool) (l : List α) :
    (sortBy le l).length = l.length := by
  induction l with
  | nil => rfl
  | cons b l ih => simp [sortBy, length_insertBy, ih]

theorem countP_filterMap_le {α β : Type} (k : α → Option β) (p : β → Bool)
    (q : α → Bool) (h : ∀ a b, k a = some b → p b = true → q a = true)
    (l : List α) : (l.filterMap k).countP p ≤ l.countP q := by
  induction l with
  | nil => simp
  | cons a l ih =>
    rw [List.filterMap_cons, List.countP_cons]
    cases hk : k a with
    | none =>
      refine le_trans ih ?_
      by_cases hq : q a <;> simp [hq]
    | some b =>
      rw [List.countP_cons]
      by_cases hp : p b
      · have hq : q a := h a b hk hp
        simp only [hp, hq, if_true]
        omega
      · have hpb : (if p b then 1 else 0) = 0 := by simp [hp]
        rw [hpb]
        by_cases hq : q a <;> simp [hq] <;> omega

theorem countP_le_one_of_nodup_map {α β : Type} [DecidableEq β] (f : α → β)
    (l : List α) (h : (l.map f).Nodup) (b : β) :
    l.countP (fun a => f a = b) ≤ 1 := by
  induction l with
  | nil => simp
  | cons a l ih =>
    rw [List.map_cons, List.nodup_cons] at h
    rw [List.countP_cons]
    by_cases hab : f a = b
    · have hz : l.countP (fun a => f a = b) = 0 := by
        rw [List.countP_eq_zero]
        intro x hx
        simp only [decide_eq_true_eq]
        intro hfx
        have hfafx : f a = f x := by rw [hab, hfx]
        exact h.1 (hfafx ▸ List.mem_map_of_mem f hx)
      simp [hab, hz]
    · simpa [hab] using ih h.2

theorem find?_map_idpres {α : Type} (p : α → Bool) (u : α → α)
    (hu : ∀ a, p (u a) = p a) (l : List α) :
    (l.map u).find? p = (l.find? p).map u := by
  induction l with
  | nil => rfl
  | cons a l ih =>
    simp only [List.map_cons]
    cases hp : p a with
    | true =>
      rw [List.find?_cons_of_pos _ (by rw [hu]; exact hp),
        List.find?_cons_of_pos _ hp]
      rfl
    | false =>
      rw [List.find?_cons_of_neg _ (by simp [hu, hp]),
        List.find?_cons_of_neg _ (by simp [hp]), ih]

theorem filter_map_pres {α : Type} (p : α → Bool) (u : α → α)
    (hu : ∀ a, p (u a) = p a) (l : List α) :
    (l.map u).filter p = (l.filter p).map u := by
  induction l with
  | nil => rfl
  | cons a l ih =>
    simp only [List.map_cons, List.filter_cons, hu, ih]
    split <;> simp

theorem find?_filter_of_imp {α : Type} (p q : α → Bool) (l : List α)
    (h : ∀ a, p a = true → q a = true) :
    (l.filter q).find? p = l.find? p := by
  induction l with
  | nil => rfl
  | cons a l ih =>
    by_cases hq : q a
    · rw [List.filter_cons_of_pos (by simpa using hq)]
      by_cases hp : p a
      · rw [List.find?_cons_of_pos _ (by simpa using hp),
          List.find?_cons_of_pos _ (by simpa using hp)]
      · rw [List.find?_cons_of_neg _ (by simpa using hp),
          List.find?_cons_of_neg _ (by simpa using hp), ih]
    · have hp : p a = false := by
        cases hpa : p a
        · rfl
        · exact absurd (h a hpa) (by simpa using hq)
      rw [List.filter_cons_of_neg (by simpa using hq),
        List.find?_cons_of_neg _ (by simp [hp]), ih]

theorem length_filter_split {α : Type} (p : α → Bool) (l : List α) :
    (l.filter p).length + (l.filter fun a => !(p a)).length = l.length := by
  induction l with
  | nil => rfl
  | cons a l ih =>
    by_cases hp : p a <;> simp [List.filter_cons, hp] <;> omega

/-! ### Helper lemmas about the access-statistics updates of `recall` -/

theorem updAccess_id (now : Int) (fid : String) (g : FactRow) :
    (updAccess now fid g).id = g.id := by
  unfold updAccess
  split <;> rfl

theorem applySeq_id (now : Int) (rs : List FactRow) (g : FactRow) :
    (applySeq now rs g).id = g.id := by
  induction rs generalizing g with
  | nil => rfl
  | cons f rs ih =>
    show (applySeq now rs (updAccess now f.id g)).id = g.id
    rw [ih, updAccess_id]

theorem applySeq_not_touched (now : Int) (rs : List FactRow) (g : FactRow)
    (h : ∀ f ∈ rs, ¬ (f.id = g.id)) : applySeq now rs g = g := by
  induction rs with
  | nil => rfl
  | cons f rs ih =>
    have h1 : updAccess now f.id g = g := by
      unfold updAccess
      rw [if_neg]
      intro he
      exact h f (List.mem_cons_self f rs) he.symm
    show applySeq now rs (updAccess now f.id g) = g
    rw [h1]
    exact ih fun f2 h2 => h f2 (List.mem_cons_of_mem _ h2)

theorem applySeq_single (now : Int) (rs : List FactRow) (g : FactRow)
    (h : rs.countP (fun f => f.id = g.id) = 1) :
    applySeq now rs g
      = { g with last_accessed := now, access_count := g.access_count + 1 } := by
  induction rs with
  | nil => simp at h
  | cons f rs ih =>
    rw [List.countP_cons] at h
    by_cases hf : f.id = g.id
    · have hz : rs.countP (fun f => f.id = g.id) = 0 := by
        simp only [hf, decide_True, if_true] at h
        omega
      have hnone : ∀ f2 ∈ rs, ¬ (f2.id = g.id) := by
        rw [List.countP_eq_zero] at hz
        intro f2 h2
        have := hz f2 h2
        simpa using this
      have step : updAccess now f.id g
          = { g with last_accessed := now, access_count := g.access_count + 1 } := by
        unfold updAccess
        rw [if_pos hf.symm]
      show applySeq now rs (updAccess now f.id g) = _
      rw [step]
      exact applySeq_not_touched now rs _ fun f2 h2 => hnone f2 h2
    · have h1 : rs.countP (fun f => f.id = g.id) = 1 := by
        simp [hf] at h
        omega
      have step : updAccess now f.id g = g := by
        unfold updAccess
        rw [if_neg fun he => hf he.symm]
      show applySeq now rs (updAccess now f.id g) = _
      rw [step]
      exact ih h1

theorem foldl_updAccess_eq_map (now : Int) (rs : List FactRow)
    (facts : List FactRow) :
    rs.foldl (fun acc f => acc.map (updAccess now f.id)) facts
      = facts.map (applySeq now rs) := by
  induction rs generalizing facts with
  | nil =>
    have h : applySeq now ([] : List FactRow) = fun g => g := rfl
    rw [List.foldl_nil, h, List.map_id']
  | cons f rs ih =>
    simp only [List.foldl_cons]
    rw [ih, List.map_map]
    rfl

/-! ### Claim C1 -/

theorem recallFilter_some_eq (eng : Fts5Engine) (query : String) (minc : Rat)
    (now : Int) (db : DB) (a : FactRow) (pr : FactRow × Int)
    (h : recallFilter eng query minc now db a = some pr) :
    pr.1 = a ∧ minc ≤ a.confidence
    ∧ (a.expires_at = none ∨ ∃ e, a.expires_at = some e ∧ now < e)
    ∧ a.superseded_by = none := by
  unfold recallFilter at h
  cases hfind : db.facts_fts.find? (fun x => x.rowid = a.rowid) with
  | none => rw [hfind] at h; cases h
  | some x =>
    rw [hfind] at h
    have h2 : (if ((eng.isMatch query x.content x.tags
        && decide (minc ≤ a.confidence)
        && (match a.expires_at with | none => true | some e => decide (now < e))
        && a.superseded_by.isNone) = true)
        then some (a, eng.rank query x.content x.tags)
        else (none : Option (FactRow × Int))) = some pr := h
    by_cases hC : (eng.isMatch query x.content x.tags
        && decide (minc ≤ a.confidence)
        && (match a.expires_at with | none => true | some e => decide (now < e))
        && a.superseded_by.isNone) = true
    · rw [if_pos hC] at h2
      have hpr : (a, eng.rank query x.content x.tags) = pr := Option.some.inj h2
      simp only [Bool.and_eq_true, decide_eq_true_eq] at hC
      obtain ⟨⟨⟨hm, hc⟩, he⟩, hs⟩ := hC
      refine ⟨by rw [← hpr], hc, ?_, Option.isNone_iff_eq_none.mp hs⟩
      cases hexp : a.expires_at with
      | none => exact Or.inl rfl
      | some e =>
        rw [hexp] at he
        exact Or.inr ⟨e, rfl, by simpa using he⟩
    · rw [if_neg hC] at h2
      cases h2

/-- C1: every fact returned by `recall(query, limit, tags, min_confidence)`
has `confidence ≥ min_confidence`, has `expires_at` null or strictly later
than now, has `superseded_by` null, and, when `tags` is given, contains every
listed tag; and the updated store holds, for every returned fact, a row with
its id whose `last_accessed` is now and whose `access_count` is the returned
fact's incremented by exactly 1.  (Fact ids are a SQLite PRIMARY KEY, hence
the `Nodup` hypothesis.) -/
theorem recall_filters_and_updates_stats
    (db : DB) (eng : Fts5Engine) (query : String) (limit : Nat)
    (tags : Option (List String)) (minc : Rat) (now : Int)
    (hid : (db.facts.map (·.id)).Nodup)
    (f : FactRow) (hf : f ∈ (recallFacts db eng query limit tags minc now).1) :
    minc ≤ f.confidence
    ∧ (f.expires_at = none ∨ ∃ e, f.expires_at = some e ∧ now < e)
    ∧ f.superseded_by = none
    ∧ (∀ ts, tags = some ts → ∀ t ∈ ts, t ∈ f.tags)
    ∧ (∃ g ∈ (recallFacts db eng query limit tags minc now).2.facts,
        g.id = f.id ∧ g.last_accessed = now
          ∧ g.access_count = f.access_count + 1) := by
  have hret : f ∈ ((((sortBy (fun a b => decide (a.2 ≤ b.2))
      (db.facts.filterMap (recallFilter eng query minc now db))).map (·.1)).take
        limit).filter (tagFilterAll tags)) := hf
  have hmemfil := List.mem_filter.mp hret
  have htag : tagFilterAll tags f = true := hmemfil.2
  have hrows2 : f ∈ (sortBy (fun a b => decide (a.2 ≤ b.2))
      (db.facts.filterMap (recallFilter eng query minc now db))).map (·.1) :=
    List.mem_of_mem_take hmemfil.1
  obtain ⟨pr, hprmem, hpr1⟩ := List.mem_map.mp hrows2
  have hjoin : pr ∈ db.facts.filterMap (recallFilter eng query minc now db) :=
    (mem_sortBy _ _ _).mp hprmem
  obtain ⟨a, hamem, hka⟩ := List.mem_filterMap.mp hjoin
  obtain ⟨hpra, hconf, hexp, hsup⟩ :=
    recallFilter_some_eq eng query minc now db a pr hka
  have haf : a = f := by rw [← hpr1, hpra]
  subst haf
  refine ⟨hconf, hexp, hsup, ?_, ?_⟩
  · intro ts hts t htts
    subst hts
    unfold tagFilterAll at htag
    rcases (Bool.or_eq_true _ _).mp htag with hemp | hall
    · rw [List.isEmpty_iff] at hemp
      subst hemp
      cases htts
    · have := List.all_eq_true.mp hall t htts
      simpa using this
  · set joined := db.facts.filterMap (recallFilter eng query minc now db)
      with hjdef
    set sorted := sortBy (fun x y : FactRow × Int => decide (x.2 ≤ y.2)) joined
      with hsdef
    set mapped := sorted.map (·.1) with hmdef
    set taken := mapped.take limit with htkdef
    set returned := taken.filter (tagFilterAll tags) with hretdef
    have hcnt_ge : 0 < returned.countP (fun r => r.id = a.id) :=
      List.countP_pos_iff.mpr ⟨a, hret, by simp⟩
    have hcnt_le : returned.countP (fun r => r.id = a.id) ≤ 1 := by
      have h1 : returned.countP (fun r => r.id = a.id)
          ≤ taken.countP (fun r => r.id = a.id) := by
        rw [hretdef]
        exact (List.filter_sublist _).countP_le _
      have h2 : taken.countP (fun r => r.id = a.id)
          ≤ mapped.countP (fun r => r.id = a.id) := by
        rw [htkdef]
        exact (List.take_sublist _ _).countP_le _
      have h3 : mapped.countP (fun r => r.id = a.id)
          = sorted.countP (fun pr2 : FactRow × Int => pr2.1.id = a.id) := by
        rw [hmdef, List.countP_map]
        rfl
      have h4 : sorted.countP (fun pr2 : FactRow × Int => pr2.1.id = a.id)
          = joined.countP (fun pr2 : FactRow × Int => pr2.1.id = a.id) := by
        rw [hsdef]
        exact countP_sortBy _ _ _
      have h5 : joined.countP (fun pr2 : FactRow × Int => pr2.1.id = a.id)
          ≤ db.facts.countP (fun b => b.id = a.id) := by
        rw [hjdef]
        refine countP_filterMap_le _ _ _ ?_ db.facts
        intro b pr2 hkb hpb
        have hb1 := (recallFilter_some_eq eng query minc now db b pr2 hkb).1
        rw [hb1] at hpb
        exact hpb
      have h6 : db.facts.countP (fun b => b.id = a.id) ≤ 1 :=
        countP_le_one_of_nodup_map (fun r : FactRow => r.id) db.facts hid a.id
      omega
    have hcount : returned.countP (fun r => r.id = a.id) = 1 := by omega
    have hdb2 : (recallFacts db eng query limit tags minc now).2.facts
        = db.facts.map (applySeq now returned) :=
      foldl_updAccess_eq_map now returned db.facts
    have hbump := applySeq_single now returned a hcount
    refine ⟨applySeq now returned a,
      by rw [hdb2]; exact List.mem_map_of_mem _ hamem,
      applySeq_id now returned a, ?_, ?_⟩
    · rw [hbump]
    · rw [hbump]

/-- C1 witness: a concrete one-fact store on which `recall` returns the fact
and all the guarantees of the claim hold. -/
theorem recall_filters_and_updates_stats_witness :
    ((dbW1.facts.map (·.id)).Nodup
      ∧ rowW1 ∈ (recallFacts dbW1 engW1 "boss updates" 10 (some ["preference"]) 0 5).1)
    ∧ ((0 : Rat) ≤ rowW1.confidence
      ∧ (rowW1.expires_at = none ∨ ∃ e, rowW1.expires_at = some e ∧ (5 : Int) < e)
      ∧ rowW1.superseded_by = none
      ∧ (∀ ts, (some ["preference"] : Option (List String)) = some ts
          → ∀ t ∈ ts, t ∈ rowW1.tags)
      ∧ (∃ g ∈ (recallFacts dbW1 engW1 "boss updates" 10 (some ["preference"]) 0 5).2.facts,
          g.id = rowW1.id ∧ g.last_accessed = 5
            ∧ g.access_count = rowW1.access_count + 1)) :=
  ⟨⟨by decide, by decide⟩,
    recall_filters_and_updates_stats dbW1 engW1 "boss updates" 10
      (some ["preference"]) 0 5 (by decide) rowW1 (by decide)⟩

/-! ### Claim C2 -/

/-- C2: the source contradicts the claim that `learn` rejects out-of-enum
outcomes before any write: `learn` performs no validation, and calling it with
the out-of-enum outcome `"banana"` on an empty store inserts and commits a
lesson row carrying that outcome. -/
theorem learn_stores_invalid_outcome :
    (learn emptyDB "L1" 3 "deployed" "deployment" "banana" "oops").1.lessons
      = [{ id := "L1", action := "deployed", context := "deployment",
           outcome := "banana", insight := "oops", created_at := 3,
           applied_count := 0 }] := by decide

/-! ### Claim C3 -/

/-- C3: the source contradicts the half of the claim about `forget`: after
`remember`-ing a fact (which does insert the row and its index entry in one
unit of work) and then `forget`-ing it, the facts table is empty but the
`facts_fts` index still holds the entry for the deleted fact. -/
theorem forget_leaves_fts_entry :
    ((forget (remember emptyDB "f1" 0 "x" [] "conversation" 1 none).1 "f1").facts
        = [])
    ∧ ((forget (remember emptyDB "f1" 0 "x" [] "conversation" 1 none).1 "f1").facts_fts
        = [{ rowid := 1, content := "x", tags := [] }]) := by decide

/-! ### Claim C4 -/

/-- C4: for an existing fact `oldId`, after `supersede(oldId, new_content)`
returns the fresh id `newId`, `get_fact(oldId)` still returns the old fact,
now with `superseded_by = newId`, and `get_fact(newId)` returns a fact whose
content is `new_content`.  (`newId` is the freshly generated id of the new
fact, hence the freshness hypothesis.) -/
theorem supersede_marks_old_creates_new
    (db : DB) (newId : String) (now : Int) (oldId new_content : String)
    (tags : List String) (src : String) (conf : Rat) (eid : Option Int)
    (oldRow : FactRow) (hold : get_fact db oldId = some oldRow)
    (hfresh : ∀ g ∈ db.facts, g.id ≠ newId) :
    (supersede db newId now oldId new_content tags src conf eid).2 = newId
    ∧ get_fact (supersede db newId now oldId new_content tags src conf eid).1 oldId
        = some { oldRow with superseded_by := some newId }
    ∧ ∃ g, get_fact (supersede db newId now oldId new_content tags src conf eid).1 newId
          = some g ∧ g.content = new_content := by
  have hoid : oldRow.id = oldId := by
    have := List.find?_some hold
    simpa using this
  have hmem : oldRow ∈ db.facts := List.mem_of_find?_eq_some hold
  have hne : oldId ≠ newId := fun he => hfresh oldRow hmem (by rw [hoid, he])
  refine ⟨rfl, ?_, ?_⟩
  · simp only [get_fact] at hold
    simp only [supersede, remember, get_fact]
    rw [find?_map_idpres _ _ (fun g => by by_cases hg : g.id = oldId <;> simp [hg]),
      List.find?_append, hold]
    simp [hoid]
  · refine ⟨{ rowid := nextRowid db.facts, id := newId,
              content := new_content, tags := tags, source := src,
              confidence := conf, created_at := now, last_accessed := now,
              access_count := 1,
              expires_at := (match eid with
                | none => none
                | some d => if d = 0 then none else some (now + d)),
              superseded_by := none }, ?_, rfl⟩
    simp only [supersede, remember, get_fact]
    rw [find?_map_idpres _ _ (fun g => by by_cases hg : g.id = oldId <;> simp [hg]),
      List.find?_append,
      List.find?_eq_none.mpr (fun g hg => by simpa using hfresh g hg)]
    simp [List.find?, Ne.symm hne]

/-- C4 witness: superseding the only fact of a one-fact store. -/
theorem supersede_marks_old_creates_new_witness :
    (get_fact dbW4 "old4" = some rowW4 ∧ (∀ g ∈ dbW4.facts, g.id ≠ "new4"))
    ∧ ((supersede dbW4 "new4" 7 "old4" "new fact" [] "conversation" 1 none).2 = "new4"
      ∧ get_fact (supersede dbW4 "new4" 7 "old4" "new fact" [] "conversation" 1 none).1 "old4"
          = some { rowW4 with superseded_by := some "new4" }
      ∧ ∃ g, get_fact (supersede dbW4 "new4" 7 "old4" "new fact" [] "conversation" 1 none).1 "new4"
            = some g ∧ g.content = "new fact") :=
  ⟨⟨by decide, by decide⟩,
    supersede_marks_old_creates_new dbW4 "new4" 7 "old4" "new fact" []
      "conversation" 1 none rowW4 (by decide) (by decide)⟩

/-! ### Claim C5 -/

/-- C5: `forget_stale(days, min_access_count)` deletes exactly the facts with
`last_accessed` older than now minus days, `access_count ≤ min_access_count`
and `superseded_by` null, returns the number of facts deleted, and leaves
every other fact — in particular every superseded fact — in the store. -/
theorem forget_stale_deletes_exactly_stale (db : DB) (now days : Int)
    (minc : Nat) :
    ((forget_stale db now days minc).2
        = db.facts.length - (forget_stale db now days minc).1.facts.length)
    ∧ (∀ f, f ∈ (forget_stale db now days minc).1.facts
        ↔ f ∈ db.facts
          ∧ ¬ (f.last_accessed < now - days ∧ f.access_count ≤ minc
                ∧ f.superseded_by = none))
    ∧ (∀ f ∈ db.facts, f.superseded_by ≠ none
        → f ∈ (forget_stale db now days minc).1.facts) := by
  have hiff : ∀ f : FactRow, staleCond now days minc f = true
      ↔ (f.last_accessed < now - days ∧ f.access_count ≤ minc
          ∧ f.superseded_by = none) := by
    intro f
    simp [staleCond, Bool.and_eq_true, Option.isNone_iff_eq_none, and_assoc]
  refine ⟨?_, ?_, ?_⟩
  · show (db.facts.filter (staleCond now days minc)).length
        = db.facts.length
          - (db.facts.filter fun f => !(staleCond now days minc f)).length
    have := length_filter_split (staleCond now days minc) db.facts
    omega
  · intro f
    show f ∈ db.facts.filter (fun f => !(staleCond now days minc f)) ↔ _
    rw [List.mem_filter]
    constructor
    · rintro ⟨hmem, hcond⟩
      refine ⟨hmem, fun hc => ?_⟩
      rw [Bool.not_eq_true'] at hcond
      rw [← hiff f] at hc
      rw [hc] at hcond
      cases hcond
    · rintro ⟨hmem, hnc⟩
      refine ⟨hmem, ?_⟩
      rw [Bool.not_eq_true']
      cases hcondv : staleCond now days minc f
      · rfl
      · exact absurd ((hiff f).mp hcondv) hnc
  · intro f hmem hsup
    show f ∈ db.facts.filter (fun f => !(staleCond now days minc f))
    rw [List.mem_filter]
    refine ⟨hmem, ?_⟩
    rw [Bool.not_eq_true']
    cases hcondv : staleCond now days minc f
    · rfl
    · exact absurd ((hiff f).mp hcondv).2.2 hsup

/-- C5 witness: on a three-fact store swept at `now = 100`, `days = 30`,
`min_access_count = 1`, the superseded old fact survives the sweep, and the
count and membership conjuncts hold at the stale fact. -/
theorem forget_stale_deletes_exactly_stale_witness :
    ((rowSup5 ∈ dbW5.facts ∧ rowSup5.superseded_by ≠ none)
      ∧ rowSup5 ∈ (forget_stale dbW5 100 30 1).1.facts)
    ∧ (rowStale5 ∈ (forget_stale dbW5 100 30 1).1.facts
        ↔ rowStale5 ∈ dbW5.facts
          ∧ ¬ (rowStale5.last_accessed < 100 - 30 ∧ rowStale5.access_count ≤ 1
                ∧ rowStale5.superseded_by = none)) :=
  ⟨⟨⟨by decide, by decide⟩,
      (forget_stale_deletes_exactly_stale dbW5 100 30 1).2.2 rowSup5 (by decide)
        (by decide)⟩,
    (forget_stale_deletes_exactly_stale dbW5 100 30 1).2.1 rowStale5⟩

/-! ### Claim C6 -/

theorem track_entity_found (db2 : DB) (fid : String) (t : Int)
    (name ty : String) (a : List (String × String)) (e : EntityRow)
    (hfind : db2.entities.find?
      (fun e => e.name = name && e.entity_type = ty) = some e) :
    track_entity db2 fid t name ty a
      = ({ db2 with entities := db2.entities.map fun x =>
            if x.id = e.id
            then { x with attributes := a, last_updated := t } else x },
         e.id) := by
  unfold track_entity
  rw [hfind]

theorem track_entity_notfound (db2 : DB) (fid : String) (t : Int)
    (name ty : String) (a : List (String × String))
    (hfind : db2.entities.find?
      (fun e => e.name = name && e.entity_type = ty) = none) :
    track_entity db2 fid t name ty a
      = ({ db2 with entities := db2.entities ++
          [{ id := fid, name := name, entity_type := ty, attributes := a,
             first_seen := t, last_updated := t, fact_ids := [] }] },
         fid) := by
  unfold track_entity
  rw [hfind]

/-- C6: calling `track_entity` twice with the same (name, entity_type) pair
— starting from a store with no entity under that pair — leaves exactly one
entity for the pair; its id is the one returned by both calls, its attributes
are exactly those of the second call (wholesale replacement), its
`first_seen` is the first call's time and its `last_updated` the second
call's time. -/
theorem track_entity_twice_upserts
    (db : DB) (id1 id2 : String) (t1 t2 : Int) (name ty : String)
    (a1 a2 : List (String × String))
    (h0 : ∀ e ∈ db.entities, ¬ (e.name = name ∧ e.entity_type = ty)) :
    (track_entity (track_entity db id1 t1 name ty a1).1 id2 t2 name ty a2).2
        = (track_entity db id1 t1 name ty a1).2
    ∧ (((track_entity (track_entity db id1 t1 name ty a1).1 id2 t2 name ty a2).1.entities.filter
        fun e => e.name = name && e.entity_type = ty).length = 1)
    ∧ (∀ e ∈ (track_entity (track_entity db id1 t1 name ty a1).1 id2 t2 name ty a2).1.entities,
        e.name = name → e.entity_type = ty →
          e.id = (track_entity db id1 t1 name ty a1).2
          ∧ e.attributes = a2 ∧ e.first_seen = t1 ∧ e.last_updated = t2) := by
  have hfind0 : db.entities.find?
      (fun e => e.name = name && e.entity_type = ty) = none :=
    List.find?_eq_none.mpr fun e he => by
      simp only [Bool.and_eq_true, decide_eq_true_eq]
      exact h0 e he
  have hfind1 : ({ db with entities := db.entities ++
      [{ id := id1, name := name, entity_type := ty, attributes := a1,
         first_seen := t1, last_updated := t1, fact_ids := [] }] } : DB).entities.find?
        (fun e => e.name = name && e.entity_type = ty)
      = some { id := id1, name := name, entity_type := ty, attributes := a1,
               first_seen := t1, last_updated := t1, fact_ids := [] } := by
    show (db.entities ++
      [({ id := id1, name := name, entity_type := ty, attributes := a1,
          first_seen := t1, last_updated := t1, fact_ids := [] } : EntityRow)]).find?
        (fun e => e.name = name && e.entity_type = ty) = _
    rw [List.find?_append, hfind0]
    simp [List.find?]
  simp only [track_entity_notfound db id1 t1 name ty a1 hfind0]
  simp only [track_entity_found _ id2 t2 name ty a2 _ hfind1]
  refine ⟨by trivial, ?_, ?_⟩
  · have hpres : ∀ x : EntityRow,
        ((fun e : EntityRow => e.name = name && e.entity_type = ty)
          ((fun x : EntityRow => if x.id = id1
            then { x with attributes := a2, last_updated := t2 } else x) x))
        = (fun e : EntityRow => e.name = name && e.entity_type = ty) x := by
      intro x
      by_cases hx : x.id = id1 <;> simp [hx]
    rw [filter_map_pres _ _ hpres, List.filter_append,
      List.filter_eq_nil_iff.mpr fun e he => by
        simp only [Bool.and_eq_true, decide_eq_true_eq]
        exact h0 e he]
    simp [List.filter]
  · intro e he hn ht
    obtain ⟨x, hx, hux⟩ := List.mem_map.mp he
    rcases List.mem_append.mp hx with hxdb | hxe1
    · exfalso
      apply h0 x hxdb
      have hname : ((if x.id = id1
          then { x with attributes := a2, last_updated := t2 } else x) : EntityRow).name
            = x.name := by
        by_cases hxx : x.id = id1 <;> simp [hxx]
      have htype : ((if x.id = id1
          then { x with attributes := a2, last_updated := t2 } else x) : EntityRow).entity_type
            = x.entity_type := by
        by_cases hxx : x.id = id1 <;> simp [hxx]
      rw [hux] at hname htype
      exact ⟨by rw [← hname, hn], by rw [← htype, ht]⟩
    · have hxe : x = { id := id1, name := name, entity_type := ty,
                       attributes := a1, first_seen := t1, last_updated := t1,
                       fact_ids := [] } := by simpa using hxe1
      subst hxe
      simp only [if_pos rfl] at hux
      rw [← hux]
      exact ⟨rfl, rfl, rfl, rfl⟩


/-- C6 witness: tracking the same (name, type) twice on an empty store. -/
theorem track_entity_twice_upserts_witness :
    (∀ e ∈ emptyDB.entities, ¬ (e.name = "Alex" ∧ e.entity_type = "person"))
    ∧ ((track_entity (track_entity emptyDB "i1" 1 "Alex" "person"
          [("role", "boss")]).1 "i2" 2 "Alex" "person" [("role", "cto")]).2
        = (track_entity emptyDB "i1" 1 "Alex" "person" [("role", "boss")]).2
      ∧ (((track_entity (track_entity emptyDB "i1" 1 "Alex" "person"
            [("role", "boss")]).1 "i2" 2 "Alex" "person" [("role", "cto")]).1.entities.filter
          fun e => e.name = "Alex" && e.entity_type = "person").length = 1)
      ∧ (∀ e ∈ (track_entity (track_entity emptyDB "i1" 1 "Alex" "person"
            [("role", "boss")]).1 "i2" 2 "Alex" "person" [("role", "cto")]).1.entities,
          e.name = "Alex" → e.entity_type = "person" →
            e.id = (track_entity emptyDB "i1" 1 "Alex" "person"
                [("role", "boss")]).2
            ∧ e.attributes = [("role", "cto")] ∧ e.first_seen = 1
            ∧ e.last_updated = 2)) :=
  ⟨by simp [emptyDB],
    track_entity_twice_upserts emptyDB "i1" "i2" 1 2 "Alex" "person"
      [("role", "boss")] [("role", "cto")] (by simp [emptyDB])⟩

/-! ### Claim C7 -/

theorem alookup_dictUpdate (old upd : List (String × String)) (k : String) :
    alookup k (dictUpdate old upd)
      = match alookup k upd with
        | some v => some v
        | none => alookup k old := by
  have hpres : ∀ kv : String × String,
      decide (((match upd.find? (fun kv2 => kv2.1 = kv.1) with
                | some kv2 => (kv.1, kv2.2)
                | none => kv) : String × String).1 = k)
      = decide (kv.1 = k) := by
    intro kv
    cases hm : upd.find? (fun kv2 => kv2.1 = kv.1) <;> simp [hm]
  unfold alookup dictUpdate
  rw [List.find?_append, find?_map_idpres _ _ hpres]
  cases hold : old.find? (fun kv => kv.1 = k) with
  | none =>
    rw [Option.map_none', Option.none_or]
    have hnotin : ∀ kv ∈ old, ¬ (kv.1 = k) := fun kv hkv => by
      simpa using List.find?_eq_none.mp hold kv hkv
    have hfilter : (upd.filter fun kv2 => !(old.any fun kv => kv.1 = kv2.1)).find?
        (fun kv => kv.1 = k) = upd.find? (fun kv => kv.1 = k) := by
      apply find?_filter_of_imp
      intro kv2 hp
      have hk2 : kv2.1 = k := by simpa using hp
      rw [Bool.not_eq_true']
      cases hany : old.any fun kv => kv.1 = kv2.1
      · rfl
      · obtain ⟨kv, hkv, hkveq⟩ := List.any_eq_true.mp hany
        exact absurd (by rw [(by simpa using hkveq : kv.1 = kv2.1), hk2])
          (hnotin kv hkv)
    rw [hfilter]
    cases hupd : upd.find? (fun kv => kv.1 = k) <;> simp [alookup, hold]
  | some kv0 =>
    have hk0 : kv0.1 = k := by simpa using List.find?_some hold
    rw [Option.map_some']
    show (Option.or (some _) _).map _ = _
    rw [hk0]
    cases hupd : upd.find? (fun kv2 => kv2.1 = k) with
    | none => simp [hupd, alookup, hold]
    | some kv2 => simp [hupd, alookup]

/-- C7: `update_entity` on a (name, entity_type) pair with no stored entity
returns an absent result and leaves the store completely unchanged; on a
stored entity it merges the given attributes into the stored attributes with
`dict.update` semantics — a key present in the update takes its new value,
every other stored key keeps its old value — and stamps `last_updated`. -/
theorem update_entity_absent_noop_present_merges
    (db : DB) (now : Int) (name ty : String)
    (attrs : List (String × String)) :
    (db.entities.find? (fun e => e.name = name && e.entity_type = ty) = none
      → update_entity db now name ty attrs = (db, none))
    ∧ (∀ e, db.entities.find? (fun e => e.name = name && e.entity_type = ty)
          = some e
      → ∃ r ∈ (update_entity db now name ty attrs).1.entities,
          r.id = e.id ∧ r.last_updated = now
          ∧ ∀ k, alookup k r.attributes
              = match alookup k attrs with
                | some v => some v
                | none => alookup k e.attributes) := by
  constructor
  · intro hnone
    unfold update_entity
    rw [hnone]
  · intro e hsome
    have hmem : e ∈ db.entities := List.mem_of_find?_eq_some hsome
    have hents : (update_entity db now name ty attrs).1.entities
        = db.entities.map fun x => if x.id = e.id
            then { x with attributes := dictUpdate e.attributes attrs,
                          last_updated := now }
            else x := by
      unfold update_entity
      rw [hsome]
    refine ⟨{ e with attributes := dictUpdate e.attributes attrs,
                     last_updated := now }, ?_, rfl, rfl, ?_⟩
    · rw [hents]
      have hee : ({ e with attributes := dictUpdate e.attributes attrs,
                           last_updated := now } : EntityRow)
          = (fun x => if x.id = e.id
              then { x with attributes := dictUpdate e.attributes attrs,
                            last_updated := now }
              else x) e := by simp
      rw [hee]
      exact List.mem_map_of_mem _ hmem
    · intro k
      exact alookup_dictUpdate e.attributes attrs k

/-- C7 witness: updating a stored entity merges attributes (new key wins,
old keys kept); checked at the keys "role", "team" and "tz". -/
theorem update_entity_absent_noop_present_merges_witness :
    (dbW7.entities.find? (fun e => e.name = "Alex" && e.entity_type = "person")
        = some entW7)
    ∧ ∃ r ∈ (update_entity dbW7 9 "Alex" "person"
          [("role", "cto"), ("tz", "EST")]).1.entities,
        r.id = entW7.id ∧ r.last_updated = 9
        ∧ ∀ k, alookup k r.attributes
            = match alookup k [("role", "cto"), ("tz", "EST")] with
              | some v => some v
              | none => alookup k entW7.attributes :=
  ⟨by decide,
    (update_entity_absent_noop_present_merges dbW7 9 "Alex" "person"
      [("role", "cto"), ("tz", "EST")]).2 entW7 (by decide)⟩

/-! ### Claim C8 -/

/-- C8 counterexample: with `expires_in_days = 0` the claim says the stored
fact's `expires_at` equals now (here `some 5`), but the source's truthiness
test `if expires_in_days:` treats 0 like None, so the stored `expires_at` is
null. -/
theorem remember_zero_days_expires_none :
    ((remember emptyDB "f1" 5 "c" [] "conversation" 1 (some 0)).1.facts.map
        (·.expires_at) = [none])
    ∧ ([(none : Option Int)] ≠ [some 5]) := by decide

/-- C8 amended: when `expires_in_days` is provided and nonzero the stored
fact's `expires_at` equals now plus `expires_in_days` days; when it is not
provided — or provided as 0, which the source's truthiness test treats like
not provided — `expires_at` is null. -/
theorem remember_expires_at_truthiness
    (db : DB) (fid : String) (now : Int) (content : String)
    (tags : List String) (src : String) (conf : Rat) (eid : Option Int)
    (hfresh : ∀ g ∈ db.facts, g.id ≠ fid) :
    ∃ r, get_fact (remember db fid now content tags src conf eid).1 fid = some r
      ∧ (eid = none → r.expires_at = none)
      ∧ (∀ d, eid = some d → d ≠ 0 → r.expires_at = some (now + d))
      ∧ (eid = some 0 → r.expires_at = none) := by
  refine ⟨{ rowid := nextRowid db.facts, id := fid, content := content,
            tags := tags, source := src, confidence := conf,
            created_at := now, last_accessed := now, access_count := 1,
            expires_at := (match eid with
              | none => none
              | some d => if d = 0 then none else some (now + d)),
            superseded_by := none }, ?_, ?_, ?_, ?_⟩
  · simp only [remember, get_fact]
    rw [List.find?_append,
      List.find?_eq_none.mpr (fun g hg => by simpa using hfresh g hg)]
    simp [List.find?]
  · intro h
    subst h
    rfl
  · intro d hd hdz
    subst hd
    simp [hdz]
  · intro h
    subst h
    simp

/-- C8 amended witness: remembering with `expires_in_days = 3` at `now = 5`
stores `expires_at = 8`. -/
theorem remember_expires_at_truthiness_witness :
    (∀ g ∈ emptyDB.facts, g.id ≠ "f8")
    ∧ ∃ r, get_fact (remember emptyDB "f8" 5 "c" [] "conversation" 1
          (some 3)).1 "f8" = some r
        ∧ ((some 3 : Option Int) = none → r.expires_at = none)
        ∧ (∀ d, (some 3 : Option Int) = some d → d ≠ 0
            → r.expires_at = some (5 + d))
        ∧ ((some 3 : Option Int) = some 0 → r.expires_at = none) :=
  ⟨by simp [emptyDB],
    remember_expires_at_truthiness emptyDB "f8" 5 "c" [] "conversation" 1
      (some 3) (by simp [emptyDB])⟩

/-! ### Claim C9 -/

/-- C9: in both `recall` and `list_facts` the LIMIT is applied to the stored
rows before the Python-side tag filter.  For `recall`: with limit 1,
`rowB9` passes the fts match and every SQL filter and carries the requested
tag, yet the call returns fewer than 1 fact because the better-ranked,
untagged `rowA9` occupied the limit window.  For `list_facts`: with limit 1,
`rowO9` carries the requested tag yet the call returns fewer than 1 fact
because the newer, untagged `rowN9` occupied the limit window. -/
theorem limit_applied_before_tag_filter :
    ((recallFacts dbC9 engC9 "q" 1 (some ["t"]) 0 7).1.length < 1
      ∧ rowB9 ∈ dbC9.facts
      ∧ recallFilter engC9 "q" 0 7 dbC9 rowB9 = some (rowB9, -1)
      ∧ tagFilterAll (some ["t"]) rowB9 = true
      ∧ rowB9 ∉ (recallFacts dbC9 engC9 "q" 1 (some ["t"]) 0 7).1)
    ∧ ((list_facts dbL9 (some ["t"]) 1 false).length < 1
      ∧ rowO9 ∈ dbL9.facts
      ∧ rowO9.superseded_by = none
      ∧ (["t"].any fun t => rowO9.tags.contains t) = true
      ∧ rowO9 ∉ list_facts dbL9 (some ["t"]) 1 false) := by decide

/-! ### Claim C10 -/

/-- C10 counterexample: `"Deploy"` is an ASCII-case-insensitive substring of
every stored context, yet with the default `limit = 10` the call omits the
oldest matching lesson, because the ten newer matching lessons fill the
limit window — so the claim as stated (every stored lesson whose context
contains the query is returned) is false. -/
theorem get_lessons_limit_cuts_matching_lesson :
    substrCI "Deploy" "deployment" = true
    ∧ mkLessonC10 0 ∈ dbC10.lessons
    ∧ mkLessonC10 0 ∉ get_lessons dbC10 (some "Deploy") none 10 := by decide

theorem self_mem_tailsL {α : Type} (l : List α) : l ∈ tailsL l := by
  cases l <;> simp [tailsL]

theorem nil_mem_tailsL {α : Type} (l : List α) : [] ∈ tailsL l := by
  induction l with
  | nil => simp [tailsL]
  | cons a l ih => simp [tailsL, ih]

theorem tailsL_map {α β : Type} (f : α → β) (l : List α) :
    tailsL (l.map f) = (tailsL l).map (List.map f) := by
  induction l with
  | nil => rfl
  | cons a l ih => simp [tailsL, ih]

theorem mem_tailsL_iff {α : Type} (t l : List α) :
    t ∈ tailsL l ↔ ∃ pre, l = pre ++ t := by
  induction l with
  | nil =>
    simp only [tailsL, List.mem_singleton]
    constructor
    · rintro rfl
      exact ⟨[], rfl⟩
    · rintro ⟨pre, hpre⟩
      rcases List.append_eq_nil.mp hpre.symm with ⟨h1, h2⟩
      exact h2
  | cons a l ih =>
    simp only [tailsL, List.mem_cons, ih]
    constructor
    · rintro (rfl | ⟨pre, rfl⟩)
      · exact ⟨[], rfl⟩
      · exact ⟨a :: pre, rfl⟩
    · rintro ⟨pre, hpre⟩
      cases pre with
      | nil => exact Or.inl (by simpa using hpre.symm)
      | cons b pre =>
        have h2 : l = pre ++ t := by
          have := hpre
          simp only [List.cons_append, List.cons.injEq] at this
          exact this.2
        exact Or.inr ⟨pre, h2⟩

theorem likeMatch_pct_cons (ps s : List Char) :
    likeMatch ('%' :: ps) s = (tailsL s).any fun t => likeMatch ps t := by
  simp [likeMatch]

theorem likeMatch_pct_nilpat (s : List Char) : likeMatch ['%'] s = true := by
  rw [likeMatch_pct_cons]
  exact List.any_eq_true.mpr ⟨[], nil_mem_tailsL s, by simp [likeMatch]⟩

theorem isPrefixOf_exists {α : Type} [DecidableEq α] (n t : List α) :
    n.isPrefixOf t = true ↔ ∃ rest, t = n ++ rest := by
  induction n generalizing t with
  | nil =>
    simp [List.isPrefixOf]
  | cons a n ih =>
    cases t with
    | nil =>
      simp [List.isPrefixOf]
    | cons b t =>
      simp only [List.isPrefixOf, Bool.and_eq_true, beq_iff_eq, ih,
        List.cons_append, List.cons.injEq]
      constructor
      · rintro ⟨hab, rest, hrest⟩
        exact ⟨rest, hab.symm, hrest⟩
      · rintro ⟨rest, hba, hrest⟩
        exact ⟨hba.symm, rest, hrest⟩

theorem likeMatch_append_pct (c mid post : List Char)
    (h : mid.map asciiLower = c.map asciiLower) :
    likeMatch (c ++ ['%']) (mid ++ post) = true := by
  induction c generalizing mid post with
  | nil =>
    have hmid : mid = [] := by simpa using h
    subst hmid
    simpa using likeMatch_pct_nilpat post
  | cons x xs ih =>
    cases mid with
    | nil => simp at h
    | cons y ys =>
      simp only [List.map_cons, List.cons.injEq] at h
      obtain ⟨hxy, hys⟩ := h
      show likeMatch (x :: (xs ++ ['%'])) (y :: (ys ++ post)) = true
      by_cases hx : x = '%'
      · subst hx
        rw [likeMatch_pct_cons]
        refine List.any_eq_true.mpr ⟨ys ++ post, ?_, ih ys post hys⟩
        simp [tailsL, self_mem_tailsL]
      · have hunf : likeMatch (x :: (xs ++ ['%'])) (y :: (ys ++ post))
            = ((decide (x = '_') || charLikeEq x y)
                && likeMatch (xs ++ ['%']) (ys ++ post)) := by
          simp [likeMatch, hx]
        rw [hunf]
        have hcl : charLikeEq x y = true := by
          simp [charLikeEq, hxy]
        simp [hcl, ih ys post hys]

theorem likeMatch_of_substrCI (c ctx : String) (h : substrCI c ctx = true) :
    likeMatch ('%' :: (c.toList ++ ['%'])) ctx.toList = true := by
  unfold substrCI at h
  obtain ⟨t, ht, hpref⟩ := List.any_eq_true.mp h
  rw [tailsL_map] at ht
  obtain ⟨t0, ht0, rfl⟩ := List.mem_map.mp ht
  obtain ⟨rest, hrest⟩ := (isPrefixOf_exists _ _).mp hpref
  obtain ⟨pre, hpre⟩ := (mem_tailsL_iff t0 ctx.toList).mp ht0
  have hlen : (c.toList.map asciiLower).length ≤ t0.length := by
    have := congrArg List.length hrest
    simp only [List.length_map, List.length_append] at this ⊢
    omega
  have hmid : (t0.take (c.toList.map asciiLower).length).map asciiLower
      = c.toList.map asciiLower := by
    rw [List.map_take, hrest]
    exact List.take_left _ _
  rw [likeMatch_pct_cons]
  refine List.any_eq_true.mpr
    ⟨t0, (mem_tailsL_iff t0 ctx.toList).mpr ⟨pre, hpre⟩, ?_⟩
  have hsplit : t0 = t0.take (c.toList.map asciiLower).length
      ++ t0.drop (c.toList.map asciiLower).length :=
    (List.take_append_drop _ t0).symm
  rw [hsplit]
  exact likeMatch_append_pct c.toList _ _ hmid

/-- C10 amended: `get_lessons`' context filter is an ASCII-case-insensitive
substring match: whenever `c`, compared ASCII-case-insensitively, is a
substring of a stored lesson's context, and at most `limit` stored lessons
pass the context filter, `get_lessons(context=c, limit=limit)` returns that
lesson. -/
theorem get_lessons_substring_ci
    (db : DB) (c : String) (lim : Nat) (l : LessonRow)
    (hl : l ∈ db.lessons)
    (hsub : substrCI c l.context = true)
    (hcount : (db.lessons.filter (lessonFilter (some c) none)).length ≤ lim) :
    l ∈ get_lessons db (some c) none lim := by
  have hfl : lessonFilter (some c) none l = true := by
    unfold lessonFilter
    by_cases hc : c.isEmpty
    · simp [hc]
    · have hlm := likeMatch_of_substrCI c l.context hsub
      simp only [hc, Bool.false_or, Bool.and_true]
      exact hlm
  have hmemfilter : l ∈ db.lessons.filter (lessonFilter (some c) none) :=
    List.mem_filter.mpr ⟨hl, hfl⟩
  unfold get_lessons
  rw [List.take_of_length_le]
  · exact (mem_sortBy _ _ _).mpr hmemfilter
  · rw [length_sortBy]
    exact hcount

/-- C10 amended witness: with two stored lessons, one matching context
`"deployment"`, the query `"Deploy"` (capital D) returns that lesson. -/
theorem get_lessons_substring_ci_witness :
    (lessonW10a ∈ dbW10.lessons
      ∧ substrCI "Deploy" lessonW10a.context = true
      ∧ (dbW10.lessons.filter (lessonFilter (some "Deploy") none)).length ≤ 10)
    ∧ lessonW10a ∈ get_lessons dbW10 (some "Deploy") none 10 :=
  ⟨⟨by decide, by decide, by decide⟩,
    get_lessons_substring_ci dbW10 "Deploy" 10 lessonW10a (by decide)
      (by decide) (by decide)⟩

end AgentMemory
